import Mathlib

/-!
Verification development for the imperio repository.

Embedded sources:
* `src/imperio/audio/utils.py` — format-conversion utilities
  (`audio_resample`, `audio_float2int`) and the VAD segmentation engine
  (`vad_collector`).
* `src/imperio/Speech/SpeechRecognizer.py` — the transcription response
  multiplexer (`SpeechRecognizer._handle_responses`).

Modelling conventions: Python floats are modelled as rationals (ℚ); audio
sample arrays as `List ℚ`; numpy integer outputs as `List ℤ`; byte-string
audio frames as values of an abstract type `α` (one value per frame, with
concatenation of frames modelled as a list of frames); Python generators as
functions returning the list of yielded items.  For the concrete parameters
appearing in the claims (ratio 0.9, capacity 20, confidence 0.87) the
floating-point arithmetic of the source computes the same comparisons and
truncations as exact rational arithmetic (0.9 * 20 rounds to exactly 18.0
and 100 * 0.87 to exactly 87.0 in IEEE double precision), so the rational
model is exact there.
-/

/-- Truncation toward zero, as performed by Python `int(...)` and by numpy
`astype` from a float type to an integer type. -/
def pyInt (q : ℚ) : ℤ := if 0 ≤ q then ⌊q⌋ else -⌊-q⌋

/-- Rounding to the nearest integer (half rounds up).  This definition
follows the spec's word "rounds" in §4.4; it is NOT what the source does
(the source truncates via `astype`) and exists only to be compared against
`audio_float2int`.  The comparison input is chosen away from ties, so any
tie-breaking rule gives the same value. -/
def specRound (q : ℚ) : ℤ := ⌊q + 1/2⌋

/-- Embeds `numpy.clip(x, lo, hi)` = `minimum(hi, maximum(lo, x))`. -/
def npClip (lo hi x : ℚ) : ℚ := min hi (max lo x)

/-- Embeds `audio_float2int` from `src/imperio/audio/utils.py` (lines 24-38)
on an already-decoded sample array: `abs_max = 2 ** (int_info.bits - 1)`,
then `(data * abs_max).clip(int_info.min, int_info.max).astype(int_type)`
with `int_info.min = -2^(bits-1)` and `int_info.max = 2^(bits-1) - 1`.
`astype` truncates toward zero. -/
def audio_float2int (data : List ℚ) (bits : ℕ) : List ℤ :=
  let abs_max : ℚ := 2 ^ (bits - 1)
  let int_min : ℚ := -(2 ^ (bits - 1))
  let int_max : ℚ := 2 ^ (bits - 1) - 1
  data.map (fun x => pyInt (npClip int_min int_max (x * abs_max)))

/-- Follows the spec's words for `floatToInt` ("multiplies by 2^(bitDepth−1),
then clamps to [−2^(bitDepth−1), 2^(bitDepth−1)−1] and rounds to the target
integer type"), with "rounds" read as round-to-nearest.  Contrast definition
for `audio_float2int`, which truncates instead. -/
def spec_float2int (data : List ℚ) (bits : ℕ) : List ℤ :=
  data.map (fun x =>
    specRound (npClip (-(2 ^ (bits - 1))) (2 ^ (bits - 1) - 1) (x * 2 ^ (bits - 1))))

/-- Embeds `audio_resample` from `src/imperio/audio/utils.py` (lines 7-21).
Line 15 reads `self.resample_rate` and `self.sample_rate`, but the function
is a free module-level function with no `self` in scope, so every call
raises `NameError` before any resampling happens.  The fallible call is
modelled as `Except`; the explicit parameters are kept to mirror the
signature. -/
def audio_resample (data : List ℚ) (sample_rate resample_rate : ℕ) :
    Except String (List ℚ) :=
  Except.error "NameError: name self is not defined"

lemma pyInt_bounds (lo hi : ℤ) (q : ℚ) (hlo : (lo : ℚ) ≤ q) (hhi : q ≤ (hi : ℚ))
    (hlo0 : lo ≤ 0) (hhi0 : 0 ≤ hi) : lo ≤ pyInt q ∧ pyInt q ≤ hi := by
  unfold pyInt
  split
  · refine ⟨le_trans hlo0 (Int.le_floor.mpr (by exact_mod_cast ‹0 ≤ q›)), ?_⟩
    have : ⌊q⌋ ≤ ⌊(hi : ℚ)⌋ := Int.floor_le_floor hhi
    simpa using this
  · have hq : q < 0 := lt_of_not_ge ‹¬ 0 ≤ q›
    constructor
    · have : ⌊-q⌋ ≤ ⌊((-lo : ℤ) : ℚ)⌋ := Int.floor_le_floor (by push_cast; linarith)
      simp only [Int.floor_intCast] at this
      omega
    · have h0 : (0 : ℤ) ≤ ⌊-q⌋ := Int.le_floor.mpr (by push_cast; linarith)
      omega

/-- C8 (corrected): `audio_float2int` multiplies each sample by
2^(bits−1) and clamps the product to [−2^(bits−1), 2^(bits−1)−1], but then
TRUNCATES toward zero (numpy `astype`) rather than rounding to nearest;
every output value lies in the integer range [−2^(bits−1), 2^(bits−1)−1]. -/
theorem audio_float2int_clamps_then_truncates :
    ∀ (data : List ℚ) (bits : ℕ),
      audio_float2int data bits =
        data.map (fun x =>
          pyInt (min ((2 : ℚ) ^ (bits - 1) - 1)
            (max (-((2 : ℚ) ^ (bits - 1))) (x * 2 ^ (bits - 1))))) ∧
      ∀ y ∈ audio_float2int data bits,
        -((2 : ℤ) ^ (bits - 1)) ≤ y ∧ y ≤ 2 ^ (bits - 1) - 1 := by
  intro data bits
  refine ⟨rfl, ?_⟩
  intro y hy
  simp only [audio_float2int, List.mem_map] at hy
  obtain ⟨x, -, rfl⟩ := hy
  have h1 : (1 : ℚ) ≤ 2 ^ (bits - 1) := one_le_pow₀ (by norm_num)
  have hlohi : (-((2 : ℚ) ^ (bits - 1))) ≤ 2 ^ (bits - 1) - 1 := by linarith
  refine pyInt_bounds _ _ _ ?_ ?_ (neg_nonpos.mpr (by positivity)) ?_
  · push_cast
    exact le_min (by linarith) (le_max_left _ _)
  · push_cast
    exact min_le_left _ _
  · have : (1 : ℤ) ≤ 2 ^ (bits - 1) := one_le_pow₀ (by norm_num)
    omega

/-- C8 counterexample: at sample 503/163840 with 16-bit depth the clamped
product is 100.6; the code truncates it to 100 while the spec's "rounds"
gives 101, so the claim as stated fails on the code. -/
theorem audio_float2int_rounding_counterexample :
    audio_float2int [503/163840] 16 = [100] ∧
    spec_float2int [503/163840] 16 = [101] := by
  constructor <;>
    norm_num [audio_float2int, spec_float2int, npClip, pyInt, specRound,
      min_def, max_def]

/-- C7 (code bug): every call of `audio_resample` fails with a `NameError`
because line 15 of `src/imperio/audio/utils.py` references the unbound name
`self`; the function never returns a resampled array of any length. -/
theorem audio_resample_always_raises :
    ∀ (data : List ℚ) (sample_rate resample_rate : ℕ),
      audio_resample data sample_rate resample_rate =
        Except.error "NameError: name self is not defined" :=
  fun _ _ _ => rfl

/-!
VAD segmentation engine: embedding of `vad_collector` from
`src/imperio/audio/utils.py` (lines 60-108).  A frame together with its
classifier verdict is a pair `(frame, is_speech)`; the per-frame classifier
`vad.is_speech` is an external capability, so the engine consumes the
already-classified stream.  The generator's two yields at a VOICED→SILENT
transition are modelled as the two items `some voiced_frames` (the
concatenated segment, kept as the list of its frames) and `none` (the `None`
boundary marker).  `deque(maxlen=N)` is a list holding the oldest entry
first, with `append` evicting from the front once `N` entries are held.
-/

/-- Loop state of `vad_collector`: `ring_buff`, `triggered` and
`voiced_frames` just before reading the next frame. -/
structure VadState (α : Type) where
  ring : List (α × Bool)
  triggered : Bool
  voiced_frames : List α
deriving DecidableEq

/-- State at entry of the `for` loop: empty deque, `triggered = False`,
empty `voiced_frames`. -/
def vadInit {α : Type} : VadState α := ⟨[], false, []⟩

/-- Embeds `deque(maxlen=maxlen).append`: append at the back, evict from the
front whenever the result would exceed `maxlen` entries. -/
def ringAppend {α : Type} (maxlen : ℕ) (buf : List (α × Bool)) (x : α × Bool) :
    List (α × Bool) :=
  let b := buf ++ [x]
  b.drop (b.length - maxlen)

/-- Embeds `len([f for f, speech in ring_buff if speech])`. -/
def num_voiced {α : Type} (buf : List (α × Bool)) : ℕ :=
  (buf.filter (fun p => p.2)).length

/-- Embeds `len([f for f, speech in ring_buff if not speech])`. -/
def num_unvoiced {α : Type} (buf : List (α × Bool)) : ℕ :=
  (buf.filter (fun p => !p.2)).length

/-- One iteration of the `for frame in streamer` loop of `vad_collector`
(utils.py lines 77-108): the new state and the items yielded during the
iteration.  `N` is `num_padding_frames` (= `ring_buff.maxlen`), `r` is
`act_inact_ratio`. -/
def vadStep {α : Type} (N : ℕ) (r : ℚ) (s : VadState α) (x : α × Bool) :
    VadState α × List (Option (List α)) :=
  if s.triggered then
    let voiced := s.voiced_frames ++ [x.1]
    let ring := ringAppend N s.ring x
    if (num_unvoiced ring : ℚ) > r * N then
      (⟨[], false, []⟩, [some voiced, none])
    else
      (⟨ring, true, voiced⟩, [])
  else
    let ring := ringAppend N s.ring x
    if (num_voiced ring : ℚ) > r * N then
      (⟨[], true, s.voiced_frames ++ ring.map Prod.fst⟩, [])
    else
      (⟨ring, false, s.voiced_frames⟩, [])

/-- Runs the `vad_collector` loop over a finite stream from state `s`:
final state and all yielded items in order. -/
def vadRun {α : Type} (N : ℕ) (r : ℚ) (s : VadState α) :
    List (α × Bool) → VadState α × List (Option (List α))
  | [] => (s, [])
  | x :: xs =>
    let step := vadStep N r s x
    let rest := vadRun N r step.1 xs
    (rest.1, step.2 ++ rest.2)

/-- Embeds the generator `vad_collector`: the items yielded over the whole
(classified) input stream.  When the stream ends the loop simply exits, so
nothing is yielded after the last frame. -/
def vad_collector {α : Type} (N : ℕ) (r : ℚ) (input : List (α × Bool)) :
    List (Option (List α)) :=
  (vadRun N r vadInit input).2

/-- Modelled from the spec: the alternative termination behavior discussed
in §9 ("whether to flush on stream termination"), which would additionally
emit the in-progress voiced segment when the stream ends in the VOICED
state.  Contrast definition for claim C4; the source does NOT do this. -/
def vad_collector_flush {α : Type} (N : ℕ) (r : ℚ) (input : List (α × Bool)) :
    List (Option (List α)) :=
  let run := vadRun N r vadInit input
  run.2 ++ (if run.1.triggered then [some run.1.voiced_frames] else [])

/-- Follows the spec's words for the behavior it rules out in §4.3 ("never
against the ring buffer's current occupancy"): identical to `vadStep` except
that the threshold multiplies the ring buffer's current occupancy
`ring.length` instead of the configured capacity `N`.  Contrast definition
for claim C2; the source does NOT do this. -/
def vadStepOccupancy {α : Type} (N : ℕ) (r : ℚ) (s : VadState α) (x : α × Bool) :
    VadState α × List (Option (List α)) :=
  if s.triggered then
    let voiced := s.voiced_frames ++ [x.1]
    let ring := ringAppend N s.ring x
    if (num_unvoiced ring : ℚ) > r * ring.length then
      (⟨[], false, []⟩, [some voiced, none])
    else
      (⟨ring, true, voiced⟩, [])
  else
    let ring := ringAppend N s.ring x
    if (num_voiced ring : ℚ) > r * ring.length then
      (⟨[], true, s.voiced_frames ++ ring.map Prod.fst⟩, [])
    else
      (⟨ring, false, s.voiced_frames⟩, [])

/-- Computational companion of `vadStep` whose threshold test is a natural-
number comparison `t < count`; for parameters where `count > r * N` is
equivalent to `t < count` (for example `N = 20`, `r = 9/10`, `t = 18`) it
agrees with `vadStep` and the kernel can evaluate it on concrete inputs. -/
def vadStepNat {α : Type} (N t : ℕ) (s : VadState α) (x : α × Bool) :
    VadState α × List (Option (List α)) :=
  if s.triggered then
    let voiced := s.voiced_frames ++ [x.1]
    let ring := ringAppend N s.ring x
    if t < num_unvoiced ring then
      (⟨[], false, []⟩, [some voiced, none])
    else
      (⟨ring, true, voiced⟩, [])
  else
    let ring := ringAppend N s.ring x
    if t < num_voiced ring then
      (⟨[], true, s.voiced_frames ++ ring.map Prod.fst⟩, [])
    else
      (⟨ring, false, s.voiced_frames⟩, [])

/-- Companion of `vadRun` built on `vadStepNat`. -/
def vadRunNat {α : Type} (N t : ℕ) (s : VadState α) :
    List (α × Bool) → VadState α × List (Option (List α))
  | [] => (s, [])
  | x :: xs =>
    let step := vadStepNat N t s x
    let rest := vadRunNat N t step.1 xs
    (rest.1, step.2 ++ rest.2)

lemma vadStep_eq_nat {α : Type} (N t : ℕ) (r : ℚ)
    (hthr : ∀ k : ℕ, ((k : ℚ) > r * N) ↔ t < k) (s : VadState α) (x : α × Bool) :
    vadStep N r s x = vadStepNat N t s x := by
  unfold vadStep vadStepNat
  by_cases ht : s.triggered <;> simp only [ht, if_true, if_false, Bool.false_eq_true] <;>
    simp [hthr]

lemma vadRun_eq_nat {α : Type} (N t : ℕ) (r : ℚ)
    (hthr : ∀ k : ℕ, ((k : ℚ) > r * N) ↔ t < k) :
    ∀ (input : List (α × Bool)) (s : VadState α),
      vadRun N r s input = vadRunNat N t s input
  | [], _ => rfl
  | x :: xs, s => by
    simp only [vadRun, vadRunNat, vadStep_eq_nat N t r hthr,
      vadRun_eq_nat N t r hthr xs]

lemma threshold_910_20 : ∀ k : ℕ, ((k : ℚ) > (9/10) * ((20 : ℕ) : ℚ)) ↔ 18 < k := by
  intro k
  have h : (9/10 : ℚ) * ((20 : ℕ) : ℚ) = 18 := by norm_num
  rw [h, gt_iff_lt]
  exact_mod_cast Iff.rfl

lemma vadRun_910_20 {α : Type} (input : List (α × Bool)) (s : VadState α) :
    vadRun 20 (9/10) s input = vadRunNat 20 18 s input :=
  vadRun_eq_nat 20 18 (9/10) threshold_910_20 input s

lemma vad_collector_910_20 {α : Type} (input : List (α × Bool)) :
    vad_collector 20 (9/10) input = (vadRunNat 20 18 (vadInit : VadState α) input).2 := by
  unfold vad_collector
  rw [vadRun_910_20]

/-- Input of 18 consecutive frames classified as speech, the frames numbered
0 to 17. -/
def speech18 : List (ℕ × Bool) := (List.range 18).map (fun i => (i, true))

/-- Input of 19 consecutive frames classified as speech, numbered 0 to 18. -/
def speech19 : List (ℕ × Bool) := (List.range 19).map (fun i => (i, true))

/-- Input of 19 consecutive frames classified as non-speech, numbered 19 to
37. -/
def silence19 : List (ℕ × Bool) := (List.range 19).map (fun j => (19 + j, false))

lemma ringAppend_length_le {α : Type} (N : ℕ) (buf : List (α × Bool)) (x : α × Bool) :
    (ringAppend N buf x).length ≤ N := by
  simp only [ringAppend, List.length_drop]
  omega

lemma vadStep_ring_le {α : Type} (N : ℕ) (r : ℚ) (s : VadState α) (x : α × Bool) :
    ((vadStep N r s x).1).ring.length ≤ N := by
  unfold vadStep
  by_cases ht : s.triggered <;> simp only [ht, if_true, if_false, Bool.false_eq_true] <;>
    split <;> simp [ringAppend_length_le]

lemma vadRun_ring_le {α : Type} (N : ℕ) (r : ℚ) :
    ∀ (input : List (α × Bool)) (s : VadState α), s.ring.length ≤ N →
      ((vadRun N r s input).1).ring.length ≤ N
  | [], _, h => h
  | x :: xs, s, _ => by
    simp only [vadRun]
    exact vadRun_ring_le N r xs _ (vadStep_ring_le N r s x)

lemma ringAppend_evicts {α : Type} (N : ℕ) (buf : List (α × Bool)) (x : α × Bool)
    (h : buf.length = N) (h0 : 0 < N) : ringAppend N buf x = buf.drop 1 ++ [x] := by
  cases buf with
  | nil => simp at h; omega
  | cons y ys =>
    have hl : ((y :: ys) ++ [x]).length - N = 1 := by
      simp only [List.length_append, List.length_cons, List.length_nil] at h ⊢
      omega
    simp only [ringAppend, hl]
    simp

/-- C9 (confirmed): the ring buffer never holds more than the configured
capacity `N` entries — a single `append` keeps the length at most `N`, the
invariant is preserved over any run of the engine, and an `append` at
capacity evicts exactly the oldest entry. -/
theorem ring_buffer_capacity_invariant :
    (∀ {α : Type} (N : ℕ) (buf : List (α × Bool)) (x : α × Bool),
        (ringAppend N buf x).length ≤ N) ∧
    (∀ {α : Type} (N : ℕ) (r : ℚ) (s : VadState α) (input : List (α × Bool)),
        s.ring.length ≤ N → ((vadRun N r s input).1).ring.length ≤ N) ∧
    (∀ {α : Type} (N : ℕ) (buf : List (α × Bool)) (x : α × Bool),
        buf.length = N → 0 < N → ringAppend N buf x = buf.drop 1 ++ [x]) :=
  ⟨fun N buf x => ringAppend_length_le N buf x,
   fun N r s input h => vadRun_ring_le N r input s h,
   fun N buf x h h0 => ringAppend_evicts N buf x h h0⟩

/-- C1 counterexample: with `N = 20`, `r = 0.9` the trigger condition is the
strict comparison `num_voiced > 18`, so after 18 consecutive speech frames
the engine is still in the SILENT state, and even after 19 further
non-speech frames nothing is ever emitted. -/
theorem vad_not_triggered_after_18_speech_frames :
    (vadRun 20 (9/10) vadInit speech18).1.triggered = false ∧
    vad_collector 20 (9/10) (speech18 ++ silence19) = [] := by
  constructor
  · rw [vadRun_910_20]
    decide
  · rw [vad_collector_910_20]
    decide

/-- C1 (corrected): with `N = 20`, `r = 0.9` the SILENT→VOICED transition
happens exactly at the 19th consecutive speech frame (not the 18th, since
the threshold comparison is strict), the fresh segment holds those 19 frames
in original order, and the segment emitted once enough silence follows
begins with those 19 frames in original order. -/
theorem vad_triggers_at_19th_speech_frame :
    (vadRun 20 (9/10) vadInit speech18).1.triggered = false ∧
    (vadRun 20 (9/10) vadInit speech19).1.triggered = true ∧
    (vadRun 20 (9/10) vadInit speech19).1.voiced_frames = speech19.map Prod.fst ∧
    vad_collector 20 (9/10) (speech19 ++ silence19) = [some (List.range 38), none] ∧
    (List.range 38).take 19 = speech19.map Prod.fst := by
  refine ⟨?_, ?_, ?_, ?_, ?_⟩
  · rw [vadRun_910_20]
    decide
  · rw [vadRun_910_20]
    decide
  · rw [vadRun_910_20]
    decide
  · rw [vad_collector_910_20]
    decide
  · decide

/-- C2 (confirmed): in both states the transition test compares the voiced
(resp. unvoiced) count of the ring buffer against `r` times the configured
capacity `N`; it never uses the buffer's current occupancy, and before the
buffer first fills the two disagree: on the very first speech frame the
occupancy-based variant would already trigger while the engine does not. -/
theorem vad_threshold_uses_configured_capacity :
    (∀ {α : Type} (N : ℕ) (r : ℚ) (s : VadState α) (x : α × Bool),
        s.triggered = false →
        (((vadStep N r s x).1.triggered = true) ↔
          ((num_voiced (ringAppend N s.ring x) : ℚ) > r * (N : ℚ)))) ∧
    (∀ {α : Type} (N : ℕ) (r : ℚ) (s : VadState α) (x : α × Bool),
        s.triggered = true →
        (((vadStep N r s x).1.triggered = false) ↔
          ((num_unvoiced (ringAppend N s.ring x) : ℚ) > r * (N : ℚ)))) ∧
    (vadStep 20 (9/10) (vadInit : VadState ℕ) (0, true)).1.triggered = false ∧
    (vadStepOccupancy 20 (9/10) (vadInit : VadState ℕ) (0, true)).1.triggered = true := by
  refine ⟨?_, ?_, ?_, ?_⟩
  · intro α N r s x h
    simp only [vadStep, h, Bool.false_eq_true, if_false]
    by_cases hc : (num_voiced (ringAppend N s.ring x) : ℚ) > r * (N : ℚ)
    · simp [hc]
    · simp [hc]
  · intro α N r s x h
    simp only [vadStep, h, if_true]
    by_cases hc : (num_unvoiced (ringAppend N s.ring x) : ℚ) > r * (N : ℚ)
    · simp [hc]
    · simp [hc]
  · rw [vadStep_eq_nat 20 18 (9/10) threshold_910_20]
    decide
  · simp only [vadStepOccupancy, vadInit]
    norm_num [ringAppend, num_voiced]

lemma vadStep_out {α : Type} (N : ℕ) (r : ℚ) (s : VadState α) (x : α × Bool) :
    (vadStep N r s x).2 = [] ∨
      ∃ seg, seg ≠ [] ∧ (vadStep N r s x).2 = [some seg, none] := by
  unfold vadStep
  by_cases ht : s.triggered
  · simp only [ht, if_true]
    by_cases hc : (num_unvoiced (ringAppend N s.ring x) : ℚ) > r * (N : ℚ)
    · exact Or.inr ⟨s.voiced_frames ++ [x.1], by simp, by simp [hc]⟩
    · exact Or.inl (by simp [hc])
  · simp only [ht, Bool.false_eq_true, if_false]
    exact Or.inl (by split <;> rfl)

lemma vadRun_blocks {α : Type} (N : ℕ) (r : ℚ) :
    ∀ (input : List (α × Bool)) (s : VadState α),
      ∃ segs : List (List α),
        (vadRun N r s input).2 = segs.flatMap (fun seg => [some seg, none]) ∧
        ([] : List α) ∉ segs
  | [], _ => ⟨[], rfl, by simp⟩
  | x :: xs, s => by
    obtain ⟨segs, he, hne⟩ := vadRun_blocks N r xs (vadStep N r s x).1
    rcases vadStep_out N r s x with h0 | ⟨seg, hseg, h2⟩
    · refine ⟨segs, ?_, hne⟩
      simp only [vadRun]
      rw [h0, he]
      simp
    · refine ⟨seg :: segs, ?_, ?_⟩
      · simp only [vadRun]
        rw [h2, he]
        simp
      · intro hmem
        rcases List.mem_cons.mp hmem with h | h
        · exact hseg h.symm
        · exact hne h

/-- C3 (confirmed): the engine's output decomposes into blocks, each a
non-empty voiced segment immediately followed by exactly one boundary
marker; hence every boundary marker is preceded by a non-empty segment
emission, and every emission is followed by exactly one marker. -/
theorem vad_segment_then_boundary :
    ∀ {α : Type} (N : ℕ) (r : ℚ) (input : List (α × Bool)),
      ∃ segs : List (List α),
        vad_collector N r input = segs.flatMap (fun seg => [some seg, none]) ∧
        ([] : List α) ∉ segs :=
  fun N r input => vadRun_blocks N r input vadInit

/-- C4 (confirmed): the engine's output is exactly what the loop iterations
yield — when the input ends in the VOICED state the run differs from the
flush-on-termination variant (the in-progress segment is dropped), and when
it ends in SILENT the two agree. -/
theorem vad_no_flush_on_termination :
    ∀ {α : Type} (N : ℕ) (r : ℚ) (input : List (α × Bool)),
      vad_collector N r input = (vadRun N r (vadInit : VadState α) input).2 ∧
      ((vadRun N r (vadInit : VadState α) input).1.triggered = true →
        vad_collector N r input ≠ vad_collector_flush N r input) ∧
      ((vadRun N r (vadInit : VadState α) input).1.triggered = false →
        vad_collector N r input = vad_collector_flush N r input) := by
  intro α N r input
  refine ⟨rfl, ?_, ?_⟩
  · intro ht heq
    simp only [vad_collector, vad_collector_flush, ht, if_true] at heq
    have := congrArg List.length heq
    simp at this
  · intro ht
    simp only [vad_collector, vad_collector_flush, ht, Bool.false_eq_true, if_false,
      List.append_nil]

/-!
Transcription response multiplexer: embedding of
`SpeechRecognizer._handle_responses` from
`src/imperio/Speech/SpeechRecognizer.py` (lines 175-198).  The observable
actions of one response are modelled as a list of effects:
`processBatch batch reset` for the call
`self._text_batch_processor.process(batch, reset=result.is_final)` and
`printed args` for the call `print("--Final--\n", text, "\n---\n")` with
exactly the argument strings the source passes.  The optional
`text_batcher` collaborator is `Option` of its `get_batch` capability; a
`get_batch` outcome of `None` and of an empty sequence are both falsy under
the source's `if batch:` test, so both are modelled as `[]`.
-/

structure SpeechAlternative where
  transcript : String
  confidence : ℚ
deriving DecidableEq

structure RecognitionResult where
  alternatives : List SpeechAlternative
  is_final : Bool
deriving DecidableEq

structure RecognitionResponse where
  results : List RecognitionResult
deriving DecidableEq

/-- One observable action of `_handle_responses`. -/
inductive RecEffect where
  | processBatch (batch : List String) (reset : Bool)
  | printed (args : List String)
deriving DecidableEq

/-- Embeds the inner block of `_handle_responses` (SpeechRecognizer.py
lines 182-198), entered once a response has passed the outer gate:
`result = response.results[0]`, then under `if result.alternatives:` the
text and integer confidence are taken from the first alternative, a batch
is obtained from the batcher when one is configured (else `[text]` on a
final result), a non-empty batch is forwarded, and on a final result the
transcript is printed.  The local `confidence` is computed by the source
and never used. -/
def process_first_result (text_batcher : Option (String → Bool → List String))
    (result : RecognitionResult) : List RecEffect :=
  match result.alternatives with
  | [] => []
  | alt :: _ =>
    let text := alt.transcript
    let confidence : ℤ := pyInt (100 * alt.confidence)
    let batch : List String :=
      match text_batcher with
      | some get_batch => get_batch text result.is_final
      | none => if result.is_final then [text] else []
    (if batch = [] then [] else [RecEffect.processBatch batch result.is_final]) ++
      (if result.is_final then [RecEffect.printed ["--Final--\n", text, "\n---\n"]]
       else [])

/-- Embeds one iteration of the `for response in responses` loop of
`_handle_responses` (lines 177-198): the response is handled only when
`response.results and (len(response.results) > 1 or
response.results[0].is_final)` holds. -/
def handle_response (text_batcher : Option (String → Bool → List String))
    (response : RecognitionResponse) : List RecEffect :=
  match response.results with
  | [] => []
  | result :: _ =>
    if response.results.length > 1 ∨ result.is_final then
      process_first_result text_batcher result
    else
      []

/-- Embeds `_handle_responses` over a whole finite response stream. -/
def handle_responses (text_batcher : Option (String → Bool → List String))
    (responses : List RecognitionResponse) : List RecEffect :=
  responses.flatMap (handle_response text_batcher)

/-- Follows the spec's words for the multiplexer's gate: a response is
processed only if it has at least one result AND (it has more than one
result OR its sole result is final). -/
def response_processed (response : RecognitionResponse) : Bool :=
  match response.results with
  | [] => false
  | result :: _ => decide (response.results.length > 1) || result.is_final

/-- Concrete response carrying exactly one final result whose sole
alternative has transcript "hello" and the given confidence. -/
def resp_hello (c : ℚ) : RecognitionResponse := ⟨[⟨[⟨"hello", c⟩], true⟩]⟩

/-- C6 (confirmed): a response is handled exactly when the gate holds (at
least one result, and more than one result or a final first result); every
other response — in particular one with zero results or a sole non-final
result — produces no effect at all. -/
theorem multiplexer_gate_exactly :
    ∀ (text_batcher : Option (String → Bool → List String))
      (response : RecognitionResponse),
      (response_processed response = false →
        handle_response text_batcher response = []) ∧
      (response_processed response = true →
        ∃ result rest, response.results = result :: rest ∧
          handle_response text_batcher response =
            process_first_result text_batcher result) ∧
      (handle_response text_batcher ⟨[]⟩ = []) ∧
      (∀ result : RecognitionResult, result.is_final = false →
        handle_response text_batcher ⟨[result]⟩ = []) := by
  intro text_batcher response
  refine ⟨?_, ?_, rfl, ?_⟩
  · intro h
    cases hres : response.results with
    | nil => simp [handle_response, hres]
    | cons result rest =>
      simp only [response_processed, hres] at h
      simp only [handle_response, hres]
      rw [if_neg]
      rw [Bool.or_eq_false_iff] at h
      push_neg
      refine ⟨?_, ?_⟩
      · have := h.1
        simpa [hres] using of_decide_eq_false this
      · simpa using h.2
  · intro h
    cases hres : response.results with
    | nil => simp [response_processed, hres] at h
    | cons result rest =>
      refine ⟨result, rest, rfl, ?_⟩
      simp only [response_processed, hres] at h
      simp only [handle_response, hres]
      rw [if_pos]
      rcases Bool.or_eq_true_iff.mp h with h1 | h1
      · exact Or.inl (by simpa [hres] using of_decide_eq_true h1)
      · exact Or.inr h1
  · intro result hfin
    simp [handle_response, hfin]

/-- C10 (confirmed): a response that passes the gate but whose first result
carries no alternatives produces no batch, no call to the batch processor
and no printed output. -/
theorem empty_alternatives_no_effect
    (text_batcher : Option (String → Bool → List String))
    (result : RecognitionResult) (rest : List RecognitionResult)
    (hgate : response_processed ⟨result :: rest⟩ = true)
    (halts : result.alternatives = []) :
    handle_response text_batcher ⟨result :: rest⟩ = [] := by
  simp only [handle_response]
  split
  · simp [process_first_result, halts]
  · rfl

/-- C10 witness: a response with one final result and an empty alternatives
list yields no effect. -/
theorem empty_alternatives_no_effect_witness :
    handle_response none ⟨[⟨[], true⟩]⟩ = [] :=
  empty_alternatives_no_effect none ⟨[], true⟩ [] rfl rfl

/-- C5 counterexample: the effects of a sole final result with text "hello"
do not depend on the confidence at all — confidence 0.87 and confidence
0.01 produce identical output, and that output is the batch ["hello"] with
reset true followed by a print of the transcript only — so the integer
confidence 87 is not surfaced on the observability channel. -/
theorem confidence_not_surfaced :
    handle_response none (resp_hello (87/100)) =
      handle_response none (resp_hello (1/100)) ∧
    handle_response none (resp_hello (87/100)) =
      [RecEffect.processBatch ["hello"] true,
       RecEffect.printed ["--Final--\n", "hello", "\n---\n"]] := by
  constructor <;> rfl

/-- C5 (corrected): a sole final result with text "hello", confidence 0.87
and no external batcher forwards the batch ["hello"] with reset true to the
batch processor; the integer confidence `int(100 * 0.87) = 87` is computed
but the observability channel receives the transcript only. -/
theorem multiplexer_final_hello_effects :
    handle_response none (resp_hello (87/100)) =
      [RecEffect.processBatch ["hello"] true,
       RecEffect.printed ["--Final--\n", "hello", "\n---\n"]] ∧
    pyInt (100 * (87/100 : ℚ)) = 87 := by
  constructor
  · rfl
  · norm_num [pyInt]
